import Mathlib

/-
Verification of the Bananagine resource-allocation and provisioning core.

The Go sources embedded here:
  * src/internal/ips/pool.go   — the IP resource pool (Allocate / Release /
    ReleaseByServer, plus the bytewise incIP helper).
  * src/cmd/server/main.go     — the provisioning workflow (POST /servers
    handler), the startup reconciliation block and the teardown handler.

A Go `net.IP` of length 4 is modelled as a natural number below 2^32:
`incIP` increments the four bytes big-endian with carry, which on a 4-byte
IP is exactly `(n + 1) % 2^32`.  The Go map `map[string]string` keyed by
`ip.String()` is modelled as an association list keyed by the numeric IP
value; `ip.String()` (dotted decimal) is injective on 4-byte IPs, so the
two keyings are isomorphic.  Where the workflow needs the printed form
(environment values) `ipString` renders the dotted decimal.

The `internal/ports` package and the `Reserve` / `ReKey` methods of the ips
pool are called from main.go but their sources are not in the repository
snapshot; they are modelled from the spec, each marked `Modelled from the
spec:` in its doc comment.
-/

set_option linter.unusedSectionVars false
set_option linter.unusedVariables false

namespace Bananagine

/-! ## Association-list model of a Go map -/

namespace PoolMap

variable {K V : Type} [DecidableEq K]

/-- Lookup in the map: the value stored at key `k`, if any. -/
def find : List (K × V) → K → Option V
  | [], _ => none
  | (k', v) :: rest, k => if k' = k then some v else find rest k

/-- Go `delete(m, k)`: remove the entry at key `k` (keys are unique, so
removing every pair with that key is the same operation). -/
def erase (m : List (K × V)) (k : K) : List (K × V) :=
  m.filter (fun p => p.1 ≠ k)

/-- Go `m[k] = v`: store `v` at key `k`, overwriting any previous entry. -/
def insert (m : List (K × V)) (k : K) (v : V) : List (K × V) :=
  (k, v) :: erase m k

/-- One pass of Go's `for ip, id := range m { if id == owner { delete; return } }`:
remove the first entry whose value equals `owner`, then stop. -/
def removeFirstOwned [DecidableEq V] : List (K × V) → V → List (K × V)
  | [], _ => []
  | (k, v) :: rest, owner =>
    if v = owner then rest else (k, v) :: removeFirstOwned rest owner

/-- Rewrite the owner of the first entry whose value equals `old` to `new`,
leaving the key (the resource value) unchanged; no-op when no entry is
owned by `old`. -/
def reKeyFirst [DecidableEq V] : List (K × V) → V → V → List (K × V)
  | [], _, _ => []
  | (k, v) :: rest, old, new =>
    if v = old then (k, new) :: rest else (k, v) :: reKeyFirst rest old new

/-- Reverse lookup: the resource of the first entry owned by `owner` — the
scan that `ReleaseByServer` and `ReKey` perform. -/
def findByOwner [DecidableEq V] : List (K × V) → V → Option K
  | [], _ => none
  | (k, v) :: rest, owner => if v = owner then some k else findByOwner rest owner

theorem erase_nil (k : K) : erase ([] : List (K × V)) k = [] := rfl

theorem erase_cons (k₀ : K) (v₀ : V) (rest : List (K × V)) (k : K) :
    erase ((k₀, v₀) :: rest) k =
      if k₀ = k then erase rest k else (k₀, v₀) :: erase rest k := by
  by_cases h : k₀ = k <;> simp [erase, h]

theorem find_eq_none_iff {m : List (K × V)} {k : K} :
    find m k = none ↔ ∀ q ∈ m, q.1 ≠ k := by
  induction m with
  | nil => simp [find]
  | cons q rest ih =>
    obtain ⟨k', v⟩ := q
    by_cases h : k' = k
    · subst h
      simp [find, ih]
    · simp [find, h, ih]

theorem find_erase_self (m : List (K × V)) (k : K) :
    find (erase m k) k = none := by
  induction m with
  | nil => rfl
  | cons q rest ih =>
    obtain ⟨k', v⟩ := q
    rw [erase_cons]
    by_cases h : k' = k
    · simpa [h] using ih
    · simpa [find, h] using ih

theorem find_erase_ne (m : List (K × V)) (k k' : K) (h : k' ≠ k) :
    find (erase m k) k' = find m k' := by
  induction m with
  | nil => rfl
  | cons q rest ih =>
    obtain ⟨k₀, v₀⟩ := q
    rw [erase_cons]
    by_cases h0 : k₀ = k
    · have h1 : k₀ ≠ k' := by
        subst h0
        exact fun hk => h hk.symm
      simp only [if_pos h0, find, if_neg h1]
      exact ih
    · by_cases h1 : k₀ = k'
      · subst h1
        simp [find, h]
      · simp only [if_neg h0, find, if_neg h1]
        exact ih

theorem find_insert_self (m : List (K × V)) (k : K) (v : V) :
    find (insert m k v) k = some v := by
  simp [insert, find]

theorem find_insert_ne (m : List (K × V)) (k k' : K) (v : V) (h : k' ≠ k) :
    find (insert m k v) k' = find m k' := by
  have hk : k ≠ k' := fun hk => h hk.symm
  simp only [insert, find, if_neg hk]
  exact find_erase_ne m k k' h

theorem erase_eq_self_of_find_none (m : List (K × V)) (k : K)
    (h : find m k = none) : erase m k = m := by
  induction m with
  | nil => rfl
  | cons q rest ih =>
    obtain ⟨k', v⟩ := q
    have h' : k' ≠ k := by
      intro hk
      simp [find, hk] at h
    have hrest : find rest k = none := by
      simpa [find, h'] using h
    rw [erase_cons, if_neg h', ih hrest]

theorem erase_erase (m : List (K × V)) (k : K) :
    erase (erase m k) k = erase m k :=
  erase_eq_self_of_find_none _ _ (find_erase_self m k)

theorem erase_insert_cancel (m : List (K × V)) (k : K) (v : V)
    (h : find m k = none) : erase (insert m k v) k = m := by
  rw [insert, erase_cons, if_pos rfl, erase_erase]
  exact erase_eq_self_of_find_none m k h

theorem removeFirstOwned_sublist [DecidableEq V] (m : List (K × V)) (o : V) :
    List.Sublist (removeFirstOwned m o) m := by
  induction m with
  | nil => exact List.Sublist.refl _
  | cons q rest ih =>
    obtain ⟨k, v⟩ := q
    by_cases h : v = o
    · rw [removeFirstOwned, if_pos h]
      exact List.sublist_cons_self _ _
    · rw [removeFirstOwned, if_neg h]
      exact List.Sublist.cons₂ _ ih

theorem removeFirstOwned_spec [DecidableEq V] (m : List (K × V)) (o : V) :
    (removeFirstOwned m o = m ∧ ∀ q ∈ m, q.2 ≠ o) ∨
    (∃ pre x suf, m = pre ++ x :: suf ∧ x.2 = o ∧ (∀ q ∈ pre, q.2 ≠ o) ∧
      removeFirstOwned m o = pre ++ suf) := by
  induction m with
  | nil => exact Or.inl ⟨rfl, by simp⟩
  | cons q rest ih =>
    obtain ⟨k, v⟩ := q
    by_cases h : v = o
    · refine Or.inr ⟨[], (k, v), rest, by simp, h, by simp, ?_⟩
      simp [removeFirstOwned, h]
    · rcases ih with ⟨heq, hnone⟩ | ⟨pre, x, suf, hm, hx, hpre, hres⟩
      · refine Or.inl ⟨?_, ?_⟩
        · simp [removeFirstOwned, h, heq]
        · intro q hq
          rcases List.mem_cons.mp hq with hq | hq
          · simpa [hq] using h
          · exact hnone q hq
      · refine Or.inr ⟨(k, v) :: pre, x, suf, by simp [hm], hx, ?_, ?_⟩
        · intro q hq
          rcases List.mem_cons.mp hq with hq | hq
          · simpa [hq] using h
          · exact hpre q hq
        · simp [removeFirstOwned, h, hres]

theorem reKeyFirst_length [DecidableEq V] (m : List (K × V)) (a b : V) :
    (reKeyFirst m a b).length = m.length := by
  induction m with
  | nil => rfl
  | cons q rest ih =>
    obtain ⟨k, v⟩ := q
    by_cases h : v = a <;> simp [reKeyFirst, h, ih]

theorem reKeyFirst_keys [DecidableEq V] (m : List (K × V)) (a b : V) :
    (reKeyFirst m a b).map Prod.fst = m.map Prod.fst := by
  induction m with
  | nil => rfl
  | cons q rest ih =>
    obtain ⟨k, v⟩ := q
    by_cases h : v = a <;> simp [reKeyFirst, h, ih]

theorem findByOwner_eq_none_iff [DecidableEq V] {m : List (K × V)} {a : V} :
    findByOwner m a = none ↔ ∀ q ∈ m, q.2 ≠ a := by
  induction m with
  | nil => simp [findByOwner]
  | cons q rest ih =>
    obtain ⟨k, v⟩ := q
    by_cases h : v = a
    · subst h
      simp [findByOwner, ih]
    · simp [findByOwner, h, ih]

theorem findByOwner_ne_none_of_mem [DecidableEq V] {m : List (K × V)}
    {q : K × V} (hq : q ∈ m) {a : V} (ha : q.2 = a) :
    findByOwner m a ≠ none := by
  intro h
  exact findByOwner_eq_none_iff.mp h q hq ha

theorem reKeyFirst_of_not_found [DecidableEq V] (m : List (K × V)) (a b : V)
    (h : findByOwner m a = none) : reKeyFirst m a b = m := by
  induction m with
  | nil => rfl
  | cons q rest ih =>
    obtain ⟨k, v⟩ := q
    by_cases hv : v = a
    · subst hv
      simp [findByOwner] at h
    · simp only [findByOwner, if_neg hv] at h
      simp [reKeyFirst, hv, ih h]

theorem reKeyFirst_eq_of_decomp [DecidableEq V] (pre suf : List (K × V))
    (a b : V) (r : K) (hpre : ∀ q ∈ pre, q.2 ≠ a) :
    reKeyFirst (pre ++ (r, a) :: suf) a b = pre ++ (r, b) :: suf := by
  induction pre with
  | nil => simp [reKeyFirst]
  | cons q rest ih =>
    obtain ⟨k, v⟩ := q
    have hv : v ≠ a := hpre (k, v) (List.mem_cons_self _ _)
    have hrest : ∀ q ∈ rest, q.2 ≠ a := fun q hq => hpre q (List.mem_cons_of_mem _ hq)
    simp [reKeyFirst, hv, ih hrest]

end PoolMap

/-! ## src/internal/ips/pool.go -/

namespace ips

/-- The size of the 4-byte IPv4 value space: `incIP` carries modulo this. -/
def W : Nat := 2 ^ 32

/-- `incIP` from pool.go: bytewise big-endian increment with carry, which on
a 4-byte IP is addition by one modulo 2^32. -/
def incIP (ip : Nat) : Nat := (ip + 1) % W

/-- The `Pool` struct of pool.go.  The mutex only serialises the methods and
has no pure content; `current` is written by `NewPool` and never read. -/
@[ext]
structure Pool where
  start : Nat
  end_ : Nat
  current : Nat
  allocated : List (Nat × String)
  deriving Repr, DecidableEq

/-- `NewPool` from pool.go: fresh pool over the given bounds with an empty
allocation map (`current` starts as a copy of `start`). -/
def NewPool (start end_ : Nat) : Pool :=
  { start := start, end_ := end_, current := start, allocated := [] }

/-- The loop body of `Allocate`: starting at `ip`, try successive values
(`incIP` between attempts) while the scan has not yet reached `end`; `fuel`
is the number of iterations left before `ip.Equal(p.end)` becomes true,
i.e. the number of `incIP` steps from the current value to `end_`. -/
def scanFrom (alloc : List (Nat × String)) (serverID : String) :
    Nat → Nat → Except String (Nat × List (Nat × String))
  | _, 0 => .error "no IPs available"
  | ip, fuel + 1 =>
    if PoolMap.find alloc ip = none then
      .ok (ip, PoolMap.insert alloc ip serverID)
    else
      scanFrom alloc serverID (incIP ip) fuel

/-- The number of `incIP` steps from `a` until the value first equals `b`
(zero when they are already equal): the iteration count of the `Allocate`
loop. -/
def dist (a b : Nat) : Nat := (b + W - a) % W

/-- `Allocate` from pool.go: scan from `start` while the value differs from
`end` (so `end` itself is never tried); the first free value is recorded
under `serverID` and returned, otherwise the "no IPs available" error. -/
def Pool.Allocate (p : Pool) (serverID : String) : Except String (Nat × Pool) :=
  match scanFrom p.allocated serverID p.start (dist p.start p.end_) with
  | .ok (ip, m) => .ok (ip, { p with allocated := m })
  | .error e => .error e

/-- `Release` from pool.go: unconditionally delete the value's entry. -/
def Pool.Release (p : Pool) (ip : Nat) : Pool :=
  { p with allocated := PoolMap.erase p.allocated ip }

/-- `ReleaseByServer` from pool.go: scan the map, delete the first entry
whose owner matches, then return. -/
def Pool.ReleaseByServer (p : Pool) (serverID : String) : Pool :=
  { p with allocated := PoolMap.removeFirstOwned p.allocated serverID }

/-- Modelled from the spec: `Reserve(value, ownerKey)` of the Resource Pool
contract — the method is called from main.go's reconciliation block but its
source is not in the snapshot.  It "forces `allocated[value] = ownerKey`
without scanning, even if `value` is already taken (last writer wins)". -/
def Pool.Reserve (p : Pool) (v : Nat) (owner : String) : Pool :=
  { p with allocated := PoolMap.insert p.allocated v owner }

/-- Modelled from the spec: `ReKey(oldOwnerKey, newOwnerKey)` of the Resource
Pool contract — called from main.go's success path but its source is not in
the snapshot.  It "finds the entry owned by `oldOwnerKey` and rewrites its
owner to `newOwnerKey`, preserving the same resource value; no-op if
`oldOwnerKey` is not found (must not fabricate an entry)". -/
def Pool.ReKey (p : Pool) (old new : String) : Pool :=
  { p with allocated := PoolMap.reKeyFirst p.allocated old new }

/-- Dotted-decimal rendering of a 4-byte IP value, as `net.IP.String()`
produces for the values this pool hands out. -/
def ipString (n : Nat) : String :=
  toString (n / 2 ^ 24 % 256) ++ "." ++ toString (n / 2 ^ 16 % 256) ++ "." ++
    toString (n / 2 ^ 8 % 256) ++ "." ++ toString (n % 256)

theorem dist_eq (s e : Nat) (h1 : s ≤ e) (h2 : e < W) : dist s e = e - s := by
  unfold dist
  have h3 : e + W - s = W + (e - s) := by omega
  rw [h3, Nat.add_mod_left]
  exact Nat.mod_eq_of_lt (by omega)

theorem scanFrom_eq_ok (alloc : List (Nat × String)) (o : String) :
    ∀ (n s v : Nat), s + n ≤ W → s ≤ v → v < s + n →
      PoolMap.find alloc v = none →
      (∀ k, s ≤ k → k < v → PoolMap.find alloc k ≠ none) →
      scanFrom alloc o s n = .ok (v, PoolMap.insert alloc v o) := by
  intro n
  induction n with
  | zero =>
    intro s v _ hsv hvn _ _
    omega
  | succ m ih =>
    intro s v h hsv hvn hfree hmin
    unfold scanFrom
    by_cases hs : v = s
    · subst hs
      rw [if_pos hfree]
    · have hsv' : s < v := lt_of_le_of_ne hsv (fun hk => hs hk.symm)
      rw [if_neg (hmin s le_rfl hsv')]
      have hlt : s + 1 < W := by omega
      have hinc : incIP s = s + 1 := by
        unfold incIP
        exact Nat.mod_eq_of_lt hlt
      rw [hinc]
      exact ih (s + 1) v (by omega) (by omega) (by omega) hfree
        (fun k hk1 hk2 => hmin k (by omega) hk2)

theorem scanFrom_eq_error (alloc : List (Nat × String)) (o : String) :
    ∀ (n s : Nat), s + n ≤ W →
      (∀ k, s ≤ k → k < s + n → PoolMap.find alloc k ≠ none) →
      scanFrom alloc o s n = .error "no IPs available" := by
  intro n
  induction n with
  | zero => intro s _ _; rfl
  | succ m ih =>
    intro s h hall
    unfold scanFrom
    rw [if_neg (hall s le_rfl (by omega))]
    by_cases hlt : s + 1 < W
    · have hinc : incIP s = s + 1 := by
        unfold incIP
        exact Nat.mod_eq_of_lt hlt
      rw [hinc]
      exact ih (s + 1) (by omega) (fun k hk1 hk2 => hall k (by omega) (by omega))
    · have hm : m = 0 := by omega
      subst hm
      rfl

theorem scanFrom_ok_inv (alloc : List (Nat × String)) (o : String) :
    ∀ (n s v : Nat) (m' : List (Nat × String)),
      scanFrom alloc o s n = .ok (v, m') →
      PoolMap.find alloc v = none ∧ m' = PoolMap.insert alloc v o := by
  intro n
  induction n with
  | zero => intro s v m' h; exact absurd h (by simp [scanFrom])
  | succ m ih =>
    intro s v m' h
    unfold scanFrom at h
    by_cases hs : PoolMap.find alloc s = none
    · rw [if_pos hs] at h
      obtain ⟨h1, h2⟩ := Prod.mk.injEq .. ▸ (Except.ok.injEq .. ▸ h :
        (s, PoolMap.insert alloc s o) = (v, m'))
      exact h1 ▸ h2 ▸ ⟨hs, rfl⟩
    · rw [if_neg hs] at h
      exact ih (incIP s) v m' h

theorem scanFrom_ok_bounds (alloc : List (Nat × String)) (o : String) :
    ∀ (n s v : Nat) (m' : List (Nat × String)), s + n ≤ W →
      scanFrom alloc o s n = .ok (v, m') →
      s ≤ v ∧ v < s + n := by
  intro n
  induction n with
  | zero => intro s v m' _ h; exact absurd h (by simp [scanFrom])
  | succ m ih =>
    intro s v m' hW h
    unfold scanFrom at h
    by_cases hs : PoolMap.find alloc s = none
    · rw [if_pos hs] at h
      have h1 : s = v := congrArg (·.1) (Except.ok.inj h)
      omega
    · rw [if_neg hs] at h
      by_cases hlt : s + 1 < W
      · have hinc : incIP s = s + 1 := by
          unfold incIP
          exact Nat.mod_eq_of_lt hlt
        rw [hinc] at h
        have := ih (s + 1) v m' (by omega) h
        omega
      · have hm : m = 0 := by omega
        subst hm
        exact absurd h (by simp [scanFrom])

/-- Inversion for a successful `Allocate`: the returned value was free, and
the pool is the input pool with that one entry inserted. -/
theorem Allocate_ok_inv (p : Pool) (o : String) (v : Nat) (p' : Pool)
    (h : p.Allocate o = .ok (v, p')) :
    PoolMap.find p.allocated v = none ∧
      p' = { p with allocated := PoolMap.insert p.allocated v o } := by
  unfold Pool.Allocate at h
  cases hs : scanFrom p.allocated o p.start (dist p.start p.end_) with
  | error e => rw [hs] at h; exact absurd h (by simp)
  | ok pr =>
    obtain ⟨v', m'⟩ := pr
    rw [hs] at h
    simp only [Except.ok.injEq, Prod.mk.injEq] at h
    obtain ⟨h1, h2⟩ := h
    obtain ⟨hfree, hm⟩ := scanFrom_ok_inv p.allocated o _ _ _ _ hs
    subst h1
    rw [← h2, hm]
    exact ⟨hfree, rfl⟩

/-- Range bounds for a successful `Allocate` on a well-formed pool: the
returned value lies in `[start, end)` — `end` itself is never returned. -/
theorem Allocate_ok_bounds (p : Pool) (o : String) (v : Nat) (p' : Pool)
    (hse : p.start ≤ p.end_) (heW : p.end_ < W)
    (h : p.Allocate o = .ok (v, p')) :
    p.start ≤ v ∧ v < p.end_ := by
  unfold Pool.Allocate at h
  cases hs : scanFrom p.allocated o p.start (dist p.start p.end_) with
  | error e => rw [hs] at h; exact absurd h (by simp)
  | ok pr =>
    obtain ⟨v', m'⟩ := pr
    rw [hs] at h
    simp only [Except.ok.injEq, Prod.mk.injEq] at h
    obtain ⟨h1, _⟩ := h
    subst h1
    rw [dist_eq p.start p.end_ hse heW] at hs
    have := scanFrom_ok_bounds p.allocated o _ _ _ _ (by omega) hs
    omega

/-- `Allocate` returns the smallest free value of `[start, end)` on a
well-formed pool: if `v` is free and everything below it is taken, the scan
stops at `v`. -/
theorem Allocate_eq_ok (p : Pool) (o : String) (v : Nat)
    (heW : p.end_ < W) (hv1 : p.start ≤ v) (hv2 : v < p.end_)
    (hfree : PoolMap.find p.allocated v = none)
    (hmin : ∀ k, p.start ≤ k → k < v → PoolMap.find p.allocated k ≠ none) :
    p.Allocate o = .ok (v, { p with allocated := PoolMap.insert p.allocated v o }) := by
  unfold Pool.Allocate
  rw [dist_eq p.start p.end_ (by omega) heW,
    scanFrom_eq_ok p.allocated o (p.end_ - p.start) p.start v (by omega) hv1
      (by omega) hfree hmin]

/-- `Allocate` fails exactly when every value of `[start, end)` is taken on
a well-formed pool. -/
theorem Allocate_eq_error (p : Pool) (o : String)
    (hse : p.start ≤ p.end_) (heW : p.end_ < W)
    (hall : ∀ k, p.start ≤ k → k < p.end_ → PoolMap.find p.allocated k ≠ none) :
    p.Allocate o = .error "no IPs available" := by
  unfold Pool.Allocate
  rw [dist_eq p.start p.end_ hse heW,
    scanFrom_eq_error p.allocated o (p.end_ - p.start) p.start (by omega)
      (fun k hk1 hk2 => hall k hk1 (by omega))]

end ips

/-! ## internal/ports (modelled from the spec) -/

namespace ports

/-- Modelled from the spec: the port pool of the `internal/ports` package,
whose source is not in the snapshot.  Identical shape to the IP pool,
"parameterized over resource type R" with R = integer port. -/
@[ext]
structure Pool where
  start : Int
  end_ : Int
  allocated : List (Int × String)
  deriving Repr, DecidableEq

/-- Modelled from the spec: fresh port pool over `[start, end]` with an
empty allocation map. -/
def NewPool (start end_ : Int) : Pool :=
  { start := start, end_ := end_, allocated := [] }

/-- Modelled from the spec: ascending scan over the `fuel` values starting
at `v`, returning the first value free in `alloc`. -/
def scanPorts (alloc : List (Int × String)) (owner : String) :
    Int → Nat → Except String (Int × List (Int × String))
  | _, 0 => .error "no ports available"
  | v, fuel + 1 =>
    if PoolMap.find alloc v = none then
      .ok (v, PoolMap.insert alloc v owner)
    else
      scanPorts alloc owner (v + 1) fuel

/-- Modelled from the spec: `Allocate(ownerKey)` "scans the range in
ascending order from `start` and returns the first value not present in
`allocated`", failing when "every value in the range is taken" — the range
being `[start, end]` inclusive. -/
def Pool.Allocate (p : Pool) (owner : String) : Except String (Int × Pool) :=
  match scanPorts p.allocated owner p.start (p.end_ - p.start + 1).toNat with
  | .ok (v, m) => .ok (v, { p with allocated := m })
  | .error e => .error e

/-- Modelled from the spec: `Release(value)` "unconditionally removes
`value` from `allocated` if present; never an error". -/
def Pool.Release (p : Pool) (v : Int) : Pool :=
  { p with allocated := PoolMap.erase p.allocated v }

/-- Modelled from the spec: `ReleaseByOwner(ownerKey)` (named
`ReleaseByServer` at the main.go call sites) — "linear scan to find and
remove the single entry whose owner equals `ownerKey`; no-op if none
found". -/
def Pool.ReleaseByServer (p : Pool) (owner : String) : Pool :=
  { p with allocated := PoolMap.removeFirstOwned p.allocated owner }

/-- Modelled from the spec: `Reserve(value, ownerKey)` — "forces
`allocated[value] = ownerKey` without scanning, even if `value` is already
taken (last writer wins)". -/
def Pool.Reserve (p : Pool) (v : Int) (owner : String) : Pool :=
  { p with allocated := PoolMap.insert p.allocated v owner }

/-- Modelled from the spec: `ReKey(oldOwnerKey, newOwnerKey)` — rewrites the
owner of the entry owned by `oldOwnerKey`, preserving its value; no-op when
absent. -/
def Pool.ReKey (p : Pool) (old new : String) : Pool :=
  { p with allocated := PoolMap.reKeyFirst p.allocated old new }

theorem scanPorts_ok_inv (alloc : List (Int × String)) (o : String) :
    ∀ (n : Nat) (s v : Int) (m' : List (Int × String)),
      scanPorts alloc o s n = .ok (v, m') →
      PoolMap.find alloc v = none ∧ m' = PoolMap.insert alloc v o := by
  intro n
  induction n with
  | zero => intro s v m' h; exact absurd h (by simp [scanPorts])
  | succ m ih =>
    intro s v m' h
    unfold scanPorts at h
    by_cases hs : PoolMap.find alloc s = none
    · rw [if_pos hs] at h
      simp only [Except.ok.injEq, Prod.mk.injEq] at h
      obtain ⟨h1, h2⟩ := h
      subst h1
      exact ⟨hs, h2.symm⟩
    · rw [if_neg hs] at h
      exact ih (s + 1) v m' h

/-- Inversion for a successful port `Allocate`: the returned value was
free, and the pool is the input pool with that one entry inserted. -/
theorem portAllocate_ok_inv (p : Pool) (o : String) (v : Int) (p' : Pool)
    (h : p.Allocate o = .ok (v, p')) :
    PoolMap.find p.allocated v = none ∧
      p' = { p with allocated := PoolMap.insert p.allocated v o } := by
  unfold Pool.Allocate at h
  cases hs : scanPorts p.allocated o p.start (p.end_ - p.start + 1).toNat with
  | error e => rw [hs] at h; exact absurd h (by simp)
  | ok pr =>
    obtain ⟨v', m'⟩ := pr
    rw [hs] at h
    simp only [Except.ok.injEq, Prod.mk.injEq] at h
    obtain ⟨h1, h2⟩ := h
    obtain ⟨hfree, hm⟩ := scanPorts_ok_inv p.allocated o _ _ _ _ hs
    subst h1
    rw [← h2, hm]
    exact ⟨hfree, rfl⟩

end ports

/-! ## src/cmd/server/main.go — the provisioning workflow

The `POST /orchestration/servers` handler is embedded as a pure function.
Its effectful inputs become parameters: the generated provisional server id
(`templateName-nanosecondTimestamp` in Go), the outcome of the single
`http.Get` on the pre-start hook URL, and the outcome of
`provider.Allocate`.  The handler's observable effects — HTTP status,
error body, both pools' final states, whether container creation was
attempted, and the response descriptor — are collected in `CreateOutcome`.
-/

/-- One entry of the container specification's port-binding list. -/
structure PortBinding where
  host : Int
  container : Int
  deriving Repr, DecidableEq

/-- The fields of `orchestrator.AllocateRequest` the workflow reads or
writes.  `ip` is the network-identity field, `none` modelling the Go empty
string; the volume map is omitted — step 4 (volume-path expansion) touches
only it and no claim observes it. -/
structure AllocateRequest where
  network : String
  ip : Option Nat
  ports : List PortBinding
  environment : List (String × String)
  memoryLimit : Int
  cpuCount : Int
  deriving Repr, DecidableEq

/-- The `Hooks` block of a template (internal/template). -/
structure HooksDecl where
  preStart : String
  deriving Repr, DecidableEq

/-- A loaded template (internal/template): container specification,
server-config overlay, hook declaration. -/
structure Template where
  name : String
  container : AllocateRequest
  server : List (String × String)
  hooks : HooksDecl
  deriving Repr, DecidableEq

/-- The provider's created-instance descriptor: id, port map, IP, plus the
`Name` the workflow writes back. -/
structure ProviderInstance where
  id : String
  ports : List (String × Int)
  ip : String
  name : String
  deriving Repr, DecidableEq

/-- The observable content of the hook's HTTP response: its status code and
the decoded `env` object (empty when absent or malformed — the decode error
is ignored by the handler). -/
structure HookResp where
  statusCode : Nat
  env : List (String × String)
  deriving Repr, DecidableEq

/-- What the handler observably did: the HTTP status it wrote, the error
message if any, both pools afterwards, whether `provider.Allocate` was
reached, the step-6 allocation (`allocatedIP`/`allocatedPort` locals), the
returned descriptor, and the fully-resolved specification passed to
`provider.Allocate` when it was reached. -/
structure CreateOutcome where
  status : Nat
  errorMsg : Option String
  ipPool : ips.Pool
  portPool : ports.Pool
  providerAttempted : Bool
  allocatedIP : Option Nat
  allocatedPort : Int
  result : Option ProviderInstance
  sentSpec : Option AllocateRequest
  deriving Repr, DecidableEq

/-- Merge `overlay` into `env`, later entries overwriting earlier ones —
the Go `for k, v := range overlay { env[k] = v }` idiom. -/
def mergeEnv (env overlay : List (String × String)) : List (String × String) :=
  overlay.foldl (fun e kv => PoolMap.insert e kv.1 kv.2) env

/-- The tail of the handler from the branch join after step 6 (main.go line
566 on): reserved environment keys, pre-start hook, caller overrides,
resource limits, `provider.Allocate`, and rollback or re-key.  `ipPool1`
and `portPool1` are the pools as left by step 6; `allocatedIP` and
`allocatedPort` are the handler's locals of the same names (`none` for the
empty string). -/
def finishCreate (tmpl : Template) (reqEnv : List (String × String))
    (reqMemoryLimit reqCPUCount : Int) (serverID : String)
    (hookResult : Except String HookResp)
    (providerResult : Except String ProviderInstance) (externalHost : String)
    (ipPool1 : ips.Pool) (portPool1 : ports.Pool)
    (allocatedIP : Option Nat) (allocatedPort : Int)
    (container1 : AllocateRequest) : CreateOutcome :=
  let env2 := PoolMap.insert
    (PoolMap.insert container1.environment "SERVER_PORT" (toString allocatedPort))
    "SERVER_ID" serverID
  -- Step 7 hook: fired only when declared; only the transport error of
  -- http.Get is checked — the response's status code is never inspected.
  let hookStep : Except String (List (String × String)) :=
    if tmpl.hooks.preStart ≠ "" then
      match hookResult with
      | .error e => .error e
      | .ok resp => .ok resp.env
    else .ok []
  match hookStep with
  | .error e =>
    -- Hook transport failure: 500 returned with the step-6 pools untouched
    -- (no release happens on this path in main.go).
    { status := 500, errorMsg := some ("hook failed: " ++ e),
      ipPool := ipPool1, portPool := portPool1, providerAttempted := false,
      allocatedIP := allocatedIP, allocatedPort := allocatedPort,
      result := none, sentSpec := none }
  | .ok hookEnv =>
    let env3 := mergeEnv env2 hookEnv
    let env4 := mergeEnv env3 reqEnv
    let container2 := { container1 with
      environment := env4,
      memoryLimit := if reqMemoryLimit > 0 then reqMemoryLimit else container1.memoryLimit,
      cpuCount := if reqCPUCount > 0 then reqCPUCount else container1.cpuCount }
    match providerResult with
    | .error e =>
      let ipPool2 := match allocatedIP with
        | some ip => ipPool1.Release ip
        | none => ipPool1
      let portPool2 := match allocatedIP with
        | some _ => portPool1
        | none => portPool1.Release allocatedPort
      { status := 500, errorMsg := some e, ipPool := ipPool2,
        portPool := portPool2, providerAttempted := true,
        allocatedIP := allocatedIP, allocatedPort := allocatedPort,
        result := none, sentSpec := some container2 }
    | .ok server0 =>
      let ipPool2 := match allocatedIP with
        | some _ => ipPool1.ReKey serverID server0.id
        | none => ipPool1
      let portPool2 := match allocatedIP with
        | some _ => portPool1
        | none => portPool1.ReKey serverID server0.id
      let portKey := toString allocatedPort
      let ports1 := match PoolMap.find server0.ports portKey with
        | some _ => server0.ports
        | none => PoolMap.insert server0.ports portKey allocatedPort
      let server1 := { server0 with
        name := serverID,
        ports := ports1,
        ip := if externalHost ≠ "" then externalHost else server0.ip }
      { status := 201, errorMsg := none, ipPool := ipPool2,
        portPool := portPool2, providerAttempted := true,
        allocatedIP := allocatedIP, allocatedPort := allocatedPort,
        result := some server1, sentSpec := some container2 }

/-- The `POST /orchestration/servers` handler: template lookup, deep copy
(identity on immutable values), server-config merge, mode determination and
step-6 allocation, then `finishCreate` for the common tail.  `env4`-style
merges keep Go's insertion-overwrites semantics via `mergeEnv`. -/
def createServer (templates : List (String × Template)) (reqTemplate : String)
    (reqEnv : List (String × String)) (reqMemoryLimit reqCPUCount : Int)
    (serverID : String) (hookResult : Except String HookResp)
    (providerResult : Except String ProviderInstance) (externalHost : String)
    (ipPool : ips.Pool) (portPool : ports.Pool) : CreateOutcome :=
  match PoolMap.find templates reqTemplate with
  | none =>
    { status := 404, errorMsg := some "template not found", ipPool := ipPool,
      portPool := portPool, providerAttempted := false, allocatedIP := none,
      allocatedPort := 0, result := none, sentSpec := none }
  | some tmpl =>
    let container0 := tmpl.container
    let env1 := mergeEnv container0.environment tmpl.server
    if container0.network ≠ "" then
      -- Overlay mode: IP from the IP pool; port read from the template's
      -- first declared binding, defaulting to 5520 — the port pool is not
      -- consulted.
      match ipPool.Allocate serverID with
      | .error e =>
        { status := 503, errorMsg := some e, ipPool := ipPool,
          portPool := portPool, providerAttempted := false,
          allocatedIP := none, allocatedPort := 0, result := none,
          sentSpec := none }
      | .ok (ip, ipPool1) =>
        let allocatedPort : Int := match container0.ports with
          | [] => 5520
          | b :: _ => b.container
        let container1 := { container0 with
          ip := some ip,
          environment := PoolMap.insert env1 "SERVER_HOST" (ips.ipString ip) }
        finishCreate tmpl reqEnv reqMemoryLimit reqCPUCount serverID
          hookResult providerResult externalHost ipPool1 portPool
          (some ip) allocatedPort container1
    else
      -- Host mode: port from the port pool; it overwrites every declared
      -- binding's host and container fields.
      match portPool.Allocate serverID with
      | .error e =>
        { status := 503, errorMsg := some e, ipPool := ipPool,
          portPool := portPool, providerAttempted := false,
          allocatedIP := none, allocatedPort := 0, result := none,
          sentSpec := none }
      | .ok (port, portPool1) =>
        let container1 := { container0 with
          ports := container0.ports.map
            (fun b => { b with host := port, container := port }),
          environment := PoolMap.insert env1 "SERVER_HOST" "0.0.0.0" }
        finishCreate tmpl reqEnv reqMemoryLimit reqCPUCount serverID
          hookResult providerResult externalHost ipPool portPool1
          none port container1

/-- An instance as reported by `provider.List` to the reconciler: its id,
bound ports (a map whose values are ranged over), and assigned IP — the
numeric value of the reported address, `none` modelling the empty string. -/
structure RunningInstance where
  id : String
  ports : List (String × Int)
  ip : Option Nat
  deriving Repr, DecidableEq

/-- The startup reconciliation block of main.go: for each listed instance,
`Reserve` each bound port under the instance id, then `Reserve` its IP when
one is assigned. -/
def reconcile (ipPool : ips.Pool) (portPool : ports.Pool)
    (existing : List RunningInstance) : ips.Pool × ports.Pool :=
  existing.foldl
    (fun pools s =>
      let pp := s.ports.foldl (fun pp kv => pp.Reserve kv.2 s.id) pools.2
      let ipp := match s.ip with
        | some v => pools.1.Reserve v s.id
        | none => pools.1
      (ipp, pp))
    (ipPool, portPool)

/-! ## Workflow shape lemmas -/

theorem createServer_overlay (templates : List (String × Template)) (rt : String)
    (reqEnv : List (String × String)) (mem cpu : Int) (sid : String)
    (hookResult : Except String HookResp)
    (providerResult : Except String ProviderInstance) (eh : String)
    (ipPool : ips.Pool) (portPool : ports.Pool) (tmpl : Template)
    (ip : Nat) (ipPool1 : ips.Pool)
    (hfind : PoolMap.find templates rt = some tmpl)
    (hnet : tmpl.container.network ≠ "")
    (halloc : ipPool.Allocate sid = .ok (ip, ipPool1)) :
    createServer templates rt reqEnv mem cpu sid hookResult providerResult eh
        ipPool portPool =
      finishCreate tmpl reqEnv mem cpu sid hookResult providerResult eh
        ipPool1 portPool (some ip)
        (match tmpl.container.ports with
          | [] => (5520 : Int)
          | b :: _ => b.container)
        { tmpl.container with
            ip := some ip,
            environment := PoolMap.insert
              (mergeEnv tmpl.container.environment tmpl.server)
              "SERVER_HOST" (ips.ipString ip) } := by
  unfold createServer
  rw [hfind]
  simp only [if_pos hnet, halloc]

theorem createServer_host (templates : List (String × Template)) (rt : String)
    (reqEnv : List (String × String)) (mem cpu : Int) (sid : String)
    (hookResult : Except String HookResp)
    (providerResult : Except String ProviderInstance) (eh : String)
    (ipPool : ips.Pool) (portPool : ports.Pool) (tmpl : Template)
    (port : Int) (portPool1 : ports.Pool)
    (hfind : PoolMap.find templates rt = some tmpl)
    (hnet : tmpl.container.network = "")
    (halloc : portPool.Allocate sid = .ok (port, portPool1)) :
    createServer templates rt reqEnv mem cpu sid hookResult providerResult eh
        ipPool portPool =
      finishCreate tmpl reqEnv mem cpu sid hookResult providerResult eh
        ipPool portPool1 none port
        { tmpl.container with
            ports := tmpl.container.ports.map
              (fun b => { b with host := port, container := port }),
            environment := PoolMap.insert
              (mergeEnv tmpl.container.environment tmpl.server)
              "SERVER_HOST" "0.0.0.0" } := by
  unfold createServer
  rw [hfind]
  simp only [hnet, ne_eq, not_true_eq_false, if_false, halloc]

theorem finishCreate_allocated (tmpl : Template) (reqEnv : List (String × String))
    (mem cpu : Int) (sid : String) (hookResult : Except String HookResp)
    (providerResult : Except String ProviderInstance) (eh : String)
    (ipPool1 : ips.Pool) (portPool1 : ports.Pool)
    (aip : Option Nat) (apt : Int) (c1 : AllocateRequest) :
    (finishCreate tmpl reqEnv mem cpu sid hookResult providerResult eh
        ipPool1 portPool1 aip apt c1).allocatedIP = aip ∧
    (finishCreate tmpl reqEnv mem cpu sid hookResult providerResult eh
        ipPool1 portPool1 aip apt c1).allocatedPort = apt := by
  unfold finishCreate
  by_cases h : tmpl.hooks.preStart ≠ "" <;>
    cases hookResult <;> cases providerResult <;> cases aip <;>
    simp [h]

theorem finishCreate_portPool_overlay (tmpl : Template)
    (reqEnv : List (String × String)) (mem cpu : Int) (sid : String)
    (hookResult : Except String HookResp)
    (providerResult : Except String ProviderInstance) (eh : String)
    (ipPool1 : ips.Pool) (portPool1 : ports.Pool) (ip : Nat) (apt : Int)
    (c1 : AllocateRequest) :
    (finishCreate tmpl reqEnv mem cpu sid hookResult providerResult eh
        ipPool1 portPool1 (some ip) apt c1).portPool = portPool1 := by
  unfold finishCreate
  by_cases h : tmpl.hooks.preStart ≠ "" <;>
    cases hookResult <;> cases providerResult <;> simp [h]

theorem finishCreate_ipPool_host (tmpl : Template)
    (reqEnv : List (String × String)) (mem cpu : Int) (sid : String)
    (hookResult : Except String HookResp)
    (providerResult : Except String ProviderInstance) (eh : String)
    (ipPool1 : ips.Pool) (portPool1 : ports.Pool) (apt : Int)
    (c1 : AllocateRequest) :
    (finishCreate tmpl reqEnv mem cpu sid hookResult providerResult eh
        ipPool1 portPool1 none apt c1).ipPool = ipPool1 := by
  unfold finishCreate
  by_cases h : tmpl.hooks.preStart ≠ "" <;>
    cases hookResult <;> cases providerResult <;> simp [h]

theorem finishCreate_hook_error (tmpl : Template)
    (reqEnv : List (String × String)) (mem cpu : Int) (sid : String)
    (e : String) (providerResult : Except String ProviderInstance) (eh : String)
    (ipPool1 : ips.Pool) (portPool1 : ports.Pool) (aip : Option Nat) (apt : Int)
    (c1 : AllocateRequest) (hhook : tmpl.hooks.preStart ≠ "") :
    finishCreate tmpl reqEnv mem cpu sid (.error e) providerResult eh
        ipPool1 portPool1 aip apt c1 =
      { status := 500, errorMsg := some ("hook failed: " ++ e),
        ipPool := ipPool1, portPool := portPool1, providerAttempted := false,
        allocatedIP := aip, allocatedPort := apt, result := none,
        sentSpec := none } := by
  unfold finishCreate
  simp [hhook]

theorem finishCreate_attempted (tmpl : Template)
    (reqEnv : List (String × String)) (mem cpu : Int) (sid : String)
    (hookResult : Except String HookResp)
    (providerResult : Except String ProviderInstance) (eh : String)
    (ipPool1 : ips.Pool) (portPool1 : ports.Pool) (aip : Option Nat) (apt : Int)
    (c1 : AllocateRequest)
    (hok : tmpl.hooks.preStart = "" ∨ ∃ r, hookResult = .ok r) :
    (finishCreate tmpl reqEnv mem cpu sid hookResult providerResult eh
        ipPool1 portPool1 aip apt c1).providerAttempted = true := by
  unfold finishCreate
  rcases hok with hok | ⟨r, hok⟩
  · cases providerResult <;> simp [hok]
  · subst hok
    by_cases h : tmpl.hooks.preStart ≠ "" <;>
      cases providerResult <;> simp [h]

theorem finishCreate_provider_error (tmpl : Template)
    (reqEnv : List (String × String)) (mem cpu : Int) (sid : String)
    (hookResult : Except String HookResp) (e : String) (eh : String)
    (ipPool1 : ips.Pool) (portPool1 : ports.Pool) (aip : Option Nat) (apt : Int)
    (c1 : AllocateRequest)
    (hok : tmpl.hooks.preStart = "" ∨ ∃ r, hookResult = .ok r) :
    (finishCreate tmpl reqEnv mem cpu sid hookResult (.error e) eh
        ipPool1 portPool1 aip apt c1).status = 500 ∧
    (finishCreate tmpl reqEnv mem cpu sid hookResult (.error e) eh
        ipPool1 portPool1 aip apt c1).errorMsg = some e ∧
    (finishCreate tmpl reqEnv mem cpu sid hookResult (.error e) eh
        ipPool1 portPool1 aip apt c1).ipPool =
      (match aip with
        | some ip => ipPool1.Release ip
        | none => ipPool1) ∧
    (finishCreate tmpl reqEnv mem cpu sid hookResult (.error e) eh
        ipPool1 portPool1 aip apt c1).portPool =
      (match aip with
        | some _ => portPool1
        | none => portPool1.Release apt) := by
  unfold finishCreate
  rcases hok with hok | ⟨r, hok⟩
  · simp [hok]
  · subst hok
    by_cases h : tmpl.hooks.preStart ≠ "" <;> simp [h]

theorem finishCreate_provider_ok (tmpl : Template)
    (reqEnv : List (String × String)) (mem cpu : Int) (sid : String)
    (hookResult : Except String HookResp) (inst : ProviderInstance) (eh : String)
    (ipPool1 : ips.Pool) (portPool1 : ports.Pool) (aip : Option Nat) (apt : Int)
    (c1 : AllocateRequest)
    (hok : tmpl.hooks.preStart = "" ∨ ∃ r, hookResult = .ok r) :
    (finishCreate tmpl reqEnv mem cpu sid hookResult (.ok inst) eh
        ipPool1 portPool1 aip apt c1).status = 201 ∧
    (finishCreate tmpl reqEnv mem cpu sid hookResult (.ok inst) eh
        ipPool1 portPool1 aip apt c1).ipPool =
      (match aip with
        | some _ => ipPool1.ReKey sid inst.id
        | none => ipPool1) ∧
    (finishCreate tmpl reqEnv mem cpu sid hookResult (.ok inst) eh
        ipPool1 portPool1 aip apt c1).portPool =
      (match aip with
        | some _ => portPool1
        | none => portPool1.ReKey sid inst.id) := by
  unfold finishCreate
  rcases hok with hok | ⟨r, hok⟩
  · simp [hok]
  · subst hok
    by_cases h : tmpl.hooks.preStart ≠ "" <;> simp [h]

/-! ## Sequential allocation harness and claim theorems -/

/-- Sequential `Allocate` calls against the IP pool, one owner key per
call, stopping at the first failure. -/
def allocSeq : ips.Pool → List String → Except String ips.Pool
  | p, [] => .ok p
  | p, o :: os =>
    match p.Allocate o with
    | .ok (_, p') => allocSeq p' os
    | .error e => .error e

/-- The class invariant named by the spec: every allocated key lies within
the pool's inclusive `[start, end]` range. -/
def ips.Pool.InRange (p : ips.Pool) : Prop :=
  ∀ q ∈ p.allocated, p.start ≤ q.1 ∧ q.1 ≤ p.end_

instance (p : ips.Pool) : Decidable p.InRange := by
  unfold ips.Pool.InRange
  infer_instance

theorem allocSeq_fills (s e : Nat) (hse : s ≤ e) (heW : e < ips.W) :
    ∀ (os : List String) (k : Nat) (p : ips.Pool),
      p.start = s → p.end_ = e →
      (∀ v, PoolMap.find p.allocated v ≠ none ↔ s ≤ v ∧ v < k) →
      s ≤ k → k ≤ e → k + os.length = e →
      ∃ p', allocSeq p os = .ok p' ∧ p'.start = s ∧ p'.end_ = e ∧
        ∀ v, PoolMap.find p'.allocated v ≠ none ↔ s ≤ v ∧ v < e := by
  intro os
  induction os with
  | nil =>
    intro k p hs he hchar hk1 hk2 hlen
    have hke : k = e := by simpa using hlen
    subst hke
    exact ⟨p, rfl, hs, he, hchar⟩
  | cons o os ih =>
    intro k p hs he hchar hk1 hk2 hlen
    have hk : k < e := by
      simp only [List.length_cons] at hlen
      omega
    have hfree : PoolMap.find p.allocated k = none := by
      cases hf : PoolMap.find p.allocated k with
      | none => rfl
      | some w =>
        have := (hchar k).mp (by simp [hf])
        omega
    have halloc : p.Allocate o =
        .ok (k, { p with allocated := PoolMap.insert p.allocated k o }) := by
      apply ips.Allocate_eq_ok
      · rw [he]; exact heW
      · rw [hs]; exact hk1
      · rw [he]; exact hk
      · exact hfree
      · intro j hj1 hj2
        exact (hchar j).mpr ⟨by omega, hj2⟩
    rw [allocSeq, halloc]
    apply ih (k + 1)
    · exact hs
    · exact he
    · intro v
      by_cases hv : v = k
      · subst hv
        simp [PoolMap.find_insert_self]
        omega
      · rw [show ({ p with allocated := PoolMap.insert p.allocated k o} :
            ips.Pool).allocated = PoolMap.insert p.allocated k o from rfl,
          PoolMap.find_insert_ne p.allocated k v o hv]
        rw [hchar v]
        omega
    · omega
    · omega
    · simp only [List.length_cons] at hlen
      omega

/-- Claim C2, as stated, is false on the code: over the inclusive range
`[10, 12]` (N = 3 values) the third of three sequential `Allocate` calls
with distinct owner keys already fails — the scan stops when the value
equals `end`, so `12` is never handed out. -/
theorem C2_counterexample :
    (["a", "b", "c"] : List String).Nodup ∧
    allocSeq (ips.NewPool 10 12) ["a", "b", "c"] = .error "no IPs available" := by
  constructor
  · decide
  · rfl

/-- Claim C2 (amended): for a pool over `[start, end]`, the `end - start`
values of the half-open range `[start, end)` are handed out by that many
sequential `Allocate` calls with distinct owner keys, after which the pool
is exhausted and the next call fails — `end` itself is never allocated. -/
theorem C2_pool_exhaustion (s e : Nat) (os : List String) (o' : String)
    (hse : s ≤ e) (heW : e < ips.W) (hlen : os.length = e - s)
    (hdistinct : os.Nodup) :
    ∃ p', allocSeq (ips.NewPool s e) os = .ok p' ∧
      (∀ v, PoolMap.find p'.allocated v ≠ none ↔ s ≤ v ∧ v < e) ∧
      p'.Allocate o' = .error "no IPs available" := by
  obtain ⟨p', h1, h2, h3, h4⟩ :=
    allocSeq_fills s e hse heW os s (ips.NewPool s e) rfl rfl
      (by
        intro v
        simp only [ips.NewPool, PoolMap.find, ne_eq, not_true_eq_false,
          false_iff, not_and]
        omega)
      le_rfl hse (by omega)
  refine ⟨p', h1, h4, ?_⟩
  apply ips.Allocate_eq_error
  · rw [h2, h3]; exact hse
  · rw [h3]; exact heW
  · intro k hk1 hk2
    rw [h2] at hk1
    rw [h3] at hk2
    exact (h4 k).mpr ⟨hk1, hk2⟩

theorem C2_pool_exhaustion_witness :
    ∃ p', allocSeq (ips.NewPool 10 12) ["a", "b"] = .ok p' ∧
      (∀ v, PoolMap.find p'.allocated v ≠ none ↔ 10 ≤ v ∧ v < 12) ∧
      p'.Allocate "c" = .error "no IPs available" :=
  C2_pool_exhaustion 10 12 ["a", "b"] "c" (by decide) (by decide) (by decide)
    (by decide)

/-- Claim C6, as stated, is false on the code: in the pool over `[10, 12]`
with `10` and `11` taken, the value `12` of the inclusive range is still
free, yet `Allocate` reports exhaustion instead of returning it. -/
theorem C6_counterexample :
    allocSeq (ips.NewPool 10 12) ["a", "b"] =
      .ok { start := 10, end_ := 12, current := 10,
            allocated := [(11, "b"), (10, "a")] } ∧
    PoolMap.find ([(11, "b"), (10, "a")] : List (Nat × String)) 12 = none ∧
    ips.Pool.Allocate
      { start := 10, end_ := 12, current := 10,
        allocated := [(11, "b"), (10, "a")] } "c" =
      .error "no IPs available" := by
  refine ⟨rfl, rfl, rfl⟩

/-- Claim C6 (amended): whenever some value of the half-open range
`[start, end)` is free, `Allocate` succeeds and returns the smallest such
free value, recording it under the given owner key — `end` itself is
outside the scanned range. -/
theorem C6_allocate_smallest_free (p : ips.Pool) (o : String) (v : Nat)
    (heW : p.end_ < ips.W) (hv1 : p.start ≤ v) (hv2 : v < p.end_)
    (hfree : PoolMap.find p.allocated v = none)
    (hmin : ∀ k, p.start ≤ k → k < v → PoolMap.find p.allocated k ≠ none) :
    p.Allocate o =
      .ok (v, { p with allocated := PoolMap.insert p.allocated v o }) :=
  ips.Allocate_eq_ok p o v heW hv1 hv2 hfree hmin

theorem C6_allocate_smallest_free_witness :
    (ips.NewPool 10 12).Allocate "a" =
      .ok (10, { ips.NewPool 10 12 with
        allocated := PoolMap.insert (ips.NewPool 10 12).allocated 10 "a" }) :=
  C6_allocate_smallest_free (ips.NewPool 10 12) "a" 10 (by decide) (by decide)
    (by decide) (by decide)
    (by intro k h1 h2; exact absurd (h1.trans_lt h2) (by decide))

/-- Claim C9: `Release` is total and idempotent — releasing an absent value
leaves the pool unchanged — and after releasing an allocated in-range value
`v`, an `Allocate` with a fresh owner can return `v` again (here: whenever
everything below `v` is still taken, the scan returns exactly `v`). -/
theorem C9_release_idempotent (p : ips.Pool) (v : Nat) (o : String)
    (heW : p.end_ < ips.W) (hv1 : p.start ≤ v) (hv2 : v < p.end_)
    (hallocd : PoolMap.find p.allocated v ≠ none)
    (hmin : ∀ k, p.start ≤ k → k < v → PoolMap.find p.allocated k ≠ none) :
    (∀ (q : ips.Pool) (w : Nat),
        PoolMap.find q.allocated w = none → q.Release w = q) ∧
    (∀ (q : ips.Pool) (w : Nat), (q.Release w).Release w = q.Release w) ∧
    (p.Release v).Allocate o =
      .ok (v, { p.Release v with
        allocated := PoolMap.insert (p.Release v).allocated v o }) := by
  refine ⟨?_, ?_, ?_⟩
  · intro q w h
    unfold ips.Pool.Release
    rw [PoolMap.erase_eq_self_of_find_none q.allocated w h]
  · intro q w
    unfold ips.Pool.Release
    rw [PoolMap.erase_erase]
  · apply ips.Allocate_eq_ok
    · exact heW
    · exact hv1
    · exact hv2
    · exact PoolMap.find_erase_self p.allocated v
    · intro k h1 h2
      rw [show (p.Release v).allocated = PoolMap.erase p.allocated v from rfl,
        PoolMap.find_erase_ne p.allocated v k (by omega)]
      exact hmin k h1 h2

theorem C9_release_idempotent_witness :
    (ips.Pool.Release ⟨10, 12, 10, [(10, "x")]⟩ 10).Allocate "y" =
      .ok (10, { ips.Pool.Release ⟨10, 12, 10, [(10, "x")]⟩ 10 with
        allocated :=
          PoolMap.insert
            (ips.Pool.Release ⟨10, 12, 10, [(10, "x")]⟩ 10).allocated 10 "y" }) :=
  (C9_release_idempotent ⟨10, 12, 10, [(10, "x")]⟩ 10 "y" (by decide) (by decide)
    (by decide) (by decide)
    (by intro k h1 h2; exact absurd (h1.trans_lt h2) (by decide))).2.2

/-- Claim C10: a single `ReleaseByServer` call removes at most one entry —
either no entry is owned by the key and the map is unchanged, or exactly
the first owned entry disappears while every other entry (and their order)
is untouched; the bounds of the pool never change. -/
theorem C10_releaseByServer_removes_at_most_one (p : ips.Pool) (owner : String) :
    (p.ReleaseByServer owner).start = p.start ∧
    (p.ReleaseByServer owner).end_ = p.end_ ∧
    (((p.ReleaseByServer owner).allocated = p.allocated ∧
        ∀ q ∈ p.allocated, q.2 ≠ owner) ∨
      (∃ pre x suf, p.allocated = pre ++ x :: suf ∧ x.2 = owner ∧
        (∀ q ∈ pre, q.2 ≠ owner) ∧
        (p.ReleaseByServer owner).allocated = pre ++ suf)) :=
  ⟨rfl, rfl, PoolMap.removeFirstOwned_spec p.allocated owner⟩

/-- Claim C4, as stated, is false on the modelled `Reserve`: reconciling a
provider-listed instance whose reported IP value `99` lies outside the
pool's range `[10, 12]` plants an out-of-range key in the allocated map —
`Reserve` forces the entry without any range check. -/
theorem C4_counterexample :
    PoolMap.find
      (reconcile (ips.NewPool 10 12) (ports.NewPool 100 110)
        [{ id := "c1", ports := [], ip := some 99 }]).1.allocated 99 =
      some "c1" ∧
    (reconcile (ips.NewPool 10 12) (ports.NewPool 100 110)
        [{ id := "c1", ports := [], ip := some 99 }]).1.start = 10 ∧
    (reconcile (ips.NewPool 10 12) (ports.NewPool 100 110)
        [{ id := "c1", ports := [], ip := some 99 }]).1.end_ = 12 ∧
    ¬(10 ≤ 99 ∧ 99 ≤ 12) :=
  ⟨rfl, rfl, rfl, by decide⟩

/-- Claim C4 (amended): the in-range invariant is preserved by `Allocate`,
`Release`, `ReleaseByServer` and `ReKey` on a well-formed pool, and by
`Reserve` exactly when the reserved value itself lies in range; the
reconciler's `Reserve` of an arbitrary provider-reported value can violate
it. -/
theorem C4_range_invariant (p : ips.Pool) (o oldK newK : String) (v : Nat)
    (hinv : p.InRange) (hse : p.start ≤ p.end_) (heW : p.end_ < ips.W) :
    (∀ (v' : Nat) (p' : ips.Pool), p.Allocate o = .ok (v', p') → p'.InRange) ∧
    (p.Release v).InRange ∧
    (p.ReleaseByServer o).InRange ∧
    (p.ReKey oldK newK).InRange ∧
    (p.start ≤ v → v ≤ p.end_ → (p.Reserve v o).InRange) := by
  refine ⟨?_, ?_, ?_, ?_, ?_⟩
  · intro v' p' h
    obtain ⟨hfree, hp'⟩ := ips.Allocate_ok_inv p o v' p' h
    obtain ⟨hb1, hb2⟩ := ips.Allocate_ok_bounds p o v' p' hse heW h
    subst hp'
    intro q hq
    simp only [PoolMap.insert] at hq
    rcases List.mem_cons.mp hq with hq | hq
    · subst hq
      exact ⟨hb1, Nat.le_of_lt hb2⟩
    · exact hinv q (List.mem_of_mem_filter hq)
  · intro q hq
    exact hinv q (List.mem_of_mem_filter hq)
  · intro q hq
    exact hinv q ((PoolMap.removeFirstOwned_sublist p.allocated o).subset hq)
  · intro q hq
    have h1 : q.1 ∈ (PoolMap.reKeyFirst p.allocated oldK newK).map Prod.fst :=
      List.mem_map_of_mem Prod.fst hq
    rw [PoolMap.reKeyFirst_keys] at h1
    obtain ⟨q', hq', hfst⟩ := List.mem_map.mp h1
    exact hfst ▸ hinv q' hq'
  · intro h1 h2 q hq
    simp only [ips.Pool.Reserve, PoolMap.insert] at hq
    rcases List.mem_cons.mp hq with hq | hq
    · subst hq
      exact ⟨h1, h2⟩
    · exact hinv q (List.mem_of_mem_filter hq)

theorem C4_range_invariant_witness :
    (ips.Pool.Release ⟨10, 12, 10, [(10, "a")]⟩ 11).InRange ∧
    (ips.Pool.Reserve ⟨10, 12, 10, [(10, "a")]⟩ 11 "b").InRange := by
  have h := C4_range_invariant ⟨10, 12, 10, [(10, "a")]⟩ "b" "a" "c" 11
    (by decide) (by decide) (by decide)
  exact ⟨h.2.1, h.2.2.2.2 (by decide) (by decide)⟩

/-- Claim C7: when exactly one entry `(r, old)` of the pool is owned by
`old`, `ReKey old new` rewrites that entry's owner to `new` in place,
preserving the resource value and the entry count, so an owner lookup by
`old` no longer matches while one by `new` does; `ReKey` with an unknown
old owner is a no-op that fabricates nothing; and on container-creation
success the workflow rekeys the provisional id to the instance id on
exactly the pool touched in step 6, leaving the other pool unchanged. -/
theorem C7_rekey_contract (p : ips.Pool) (old new : String) (r : Nat)
    (pre suf : List (Nat × String))
    (hdecomp : p.allocated = pre ++ (r, old) :: suf)
    (hpre : ∀ q ∈ pre, q.2 ≠ old) (hsuf : ∀ q ∈ suf, q.2 ≠ old)
    (hne : old ≠ new) :
    (p.ReKey old new).allocated = pre ++ (r, new) :: suf ∧
    (p.ReKey old new).allocated.length = p.allocated.length ∧
    (r, new) ∈ (p.ReKey old new).allocated ∧
    PoolMap.findByOwner (p.ReKey old new).allocated old = none ∧
    PoolMap.findByOwner (p.ReKey old new).allocated new ≠ none ∧
    (∀ (q : ips.Pool) (o1 o2 : String),
        PoolMap.findByOwner q.allocated o1 = none → q.ReKey o1 o2 = q) ∧
    (∀ (templates : List (String × Template)) (rt : String)
        (reqEnv : List (String × String)) (mem cpu : Int) (sid : String)
        (hookResult : Except String HookResp) (inst : ProviderInstance)
        (eh : String) (ipPool : ips.Pool) (portPool : ports.Pool)
        (tmpl : Template) (ip : Nat) (ipPool1 : ips.Pool),
      PoolMap.find templates rt = some tmpl →
      tmpl.container.network ≠ "" →
      ipPool.Allocate sid = .ok (ip, ipPool1) →
      (tmpl.hooks.preStart = "" ∨ ∃ rr, hookResult = .ok rr) →
      (createServer templates rt reqEnv mem cpu sid hookResult (.ok inst) eh
          ipPool portPool).ipPool = ipPool1.ReKey sid inst.id ∧
      (createServer templates rt reqEnv mem cpu sid hookResult (.ok inst) eh
          ipPool portPool).portPool = portPool) ∧
    (∀ (templates : List (String × Template)) (rt : String)
        (reqEnv : List (String × String)) (mem cpu : Int) (sid : String)
        (hookResult : Except String HookResp) (inst : ProviderInstance)
        (eh : String) (ipPool : ips.Pool) (portPool : ports.Pool)
        (tmpl : Template) (pt : Int) (portPool1 : ports.Pool),
      PoolMap.find templates rt = some tmpl →
      tmpl.container.network = "" →
      portPool.Allocate sid = .ok (pt, portPool1) →
      (tmpl.hooks.preStart = "" ∨ ∃ rr, hookResult = .ok rr) →
      (createServer templates rt reqEnv mem cpu sid hookResult (.ok inst) eh
          ipPool portPool).portPool = portPool1.ReKey sid inst.id ∧
      (createServer templates rt reqEnv mem cpu sid hookResult (.ok inst) eh
          ipPool portPool).ipPool = ipPool) := by
  have hall : (p.ReKey old new).allocated = pre ++ (r, new) :: suf := by
    show PoolMap.reKeyFirst p.allocated old new = _
    rw [hdecomp]
    exact PoolMap.reKeyFirst_eq_of_decomp pre suf old new r hpre
  refine ⟨hall, ?_, ?_, ?_, ?_, ?_, ?_, ?_⟩
  · rw [hall, hdecomp]
    simp
  · rw [hall]
    simp
  · rw [hall]
    apply PoolMap.findByOwner_eq_none_iff.mpr
    intro q hq
    rcases List.mem_append.mp hq with hq | hq
    · exact hpre q hq
    · rcases List.mem_cons.mp hq with hq | hq
      · subst hq
        exact fun h => hne h.symm
      · exact hsuf q hq
  · rw [hall]
    exact PoolMap.findByOwner_ne_none_of_mem
      (show ((r, new) : Nat × String) ∈ pre ++ (r, new) :: suf by simp) rfl
  · intro q o1 o2 h
    show ips.Pool.ReKey q o1 o2 = q
    unfold ips.Pool.ReKey
    rw [PoolMap.reKeyFirst_of_not_found q.allocated o1 o2 h]
  · intro templates rt reqEnv mem cpu sid hookResult inst eh ipPool portPool
      tmpl ip ipPool1 hfind hnet halloc hok
    rw [createServer_overlay templates rt reqEnv mem cpu sid hookResult
      (.ok inst) eh ipPool portPool tmpl ip ipPool1 hfind hnet halloc]
    constructor
    · have h2 := (finishCreate_provider_ok tmpl reqEnv mem cpu sid hookResult
        inst eh ipPool1 portPool (some ip)
        (match tmpl.container.ports with
          | [] => (5520 : Int)
          | b :: _ => b.container)
        { tmpl.container with
            ip := some ip,
            environment := PoolMap.insert
              (mergeEnv tmpl.container.environment tmpl.server)
              "SERVER_HOST" (ips.ipString ip) } hok).2.1
      simpa using h2
    · exact finishCreate_portPool_overlay tmpl reqEnv mem cpu sid hookResult
        (.ok inst) eh ipPool1 portPool ip _ _
  · intro templates rt reqEnv mem cpu sid hookResult inst eh ipPool portPool
      tmpl pt portPool1 hfind hnet halloc hok
    rw [createServer_host templates rt reqEnv mem cpu sid hookResult
      (.ok inst) eh ipPool portPool tmpl pt portPool1 hfind hnet halloc]
    constructor
    · have h3 := (finishCreate_provider_ok tmpl reqEnv mem cpu sid hookResult
        inst eh ipPool portPool1 none pt
        { tmpl.container with
            ports := tmpl.container.ports.map
              (fun b => { b with host := pt, container := pt }),
            environment := PoolMap.insert
              (mergeEnv tmpl.container.environment tmpl.server)
              "SERVER_HOST" "0.0.0.0" } hok).2.2
      simpa using h3
    · exact finishCreate_ipPool_host tmpl reqEnv mem cpu sid hookResult
        (.ok inst) eh ipPool portPool1 _ _

theorem C7_rekey_contract_witness :
    (ips.Pool.ReKey ⟨10, 12, 10, [(10, "prov")]⟩ "prov" "cid").allocated =
      [(10, "cid")] ∧
    PoolMap.findByOwner
      (ips.Pool.ReKey ⟨10, 12, 10, [(10, "prov")]⟩ "prov" "cid").allocated
      "prov" = none := by
  have h := C7_rekey_contract ⟨10, 12, 10, [(10, "prov")]⟩ "prov" "cid" 10
    [] [] rfl (by simp) (by simp) (by decide)
  exact ⟨h.1, h.2.2.2.1⟩

/-- A concrete overlay-mode template (non-empty network field, no declared
port bindings) that declares a pre-start hook URL — the fixture for the
concrete workflow runs. -/
def tmplOverlayHook : Template :=
  { name := "game",
    container :=
      { network := "game-net", ip := none, ports := [],
        environment := [], memoryLimit := 0, cpuCount := 0 },
    server := [],
    hooks := { preStart := "http://hooks.internal/pre" } }

/-- Claim C1, evaluated on the code at the failing input: after the step-6
IP allocation succeeds, a transport failure of the pre-start hook call
makes the handler answer 500 — but the IP pool still holds the entry keyed
to the attempt's provisional owner, so the allocation leaks instead of
being released. -/
theorem C1_hook_failure_leaks_allocation :
    (createServer [("game", tmplOverlayHook)] "game" [] 0 0 "game-1"
        (.error "connection refused") (.error "unreached") ""
        (ips.NewPool 10 12) (ports.NewPool 5521 5599)).status = 500 ∧
    PoolMap.find
      (createServer [("game", tmplOverlayHook)] "game" [] 0 0 "game-1"
        (.error "connection refused") (.error "unreached") ""
        (ips.NewPool 10 12) (ports.NewPool 5521 5599)).ipPool.allocated 10 =
      some "game-1" :=
  ⟨rfl, rfl⟩

/-- Claim C3, as stated, is false on the code: the hook's HTTP status code
is never inspected — with the hook responding with status 500 the workflow
still proceeds to container creation and answers 201. -/
theorem C3_counterexample :
    (createServer [("game", tmplOverlayHook)] "game" [] 0 0 "game-2"
        (.ok { statusCode := 500, env := [] })
        (.ok { id := "cid1", ports := [], ip := "172.17.0.2", name := "" })
        "" (ips.NewPool 10 12) (ports.NewPool 5521 5599)).providerAttempted =
      true ∧
    (createServer [("game", tmplOverlayHook)] "game" [] 0 0 "game-2"
        (.ok { statusCode := 500, env := [] })
        (.ok { id := "cid1", ports := [], ip := "172.17.0.2", name := "" })
        "" (ips.NewPool 10 12) (ports.NewPool 5521 5599)).status = 201 :=
  ⟨rfl, rfl⟩

/-- Claim C3 (amended): with a pre-start hook declared and the step-6
allocation successful, only a transport failure of the hook call aborts the
workflow — 500 with the hook error, provider never reached; a hook
response with any status code, 2xx or not, lets the workflow proceed to
container creation. -/
theorem C3_hook_transport_only (templates : List (String × Template))
    (rt : String) (reqEnv : List (String × String)) (mem cpu : Int)
    (sid : String) (providerResult : Except String ProviderInstance)
    (eh : String) (ipPool : ips.Pool) (portPool : ports.Pool)
    (tmpl : Template)
    (hfind : PoolMap.find templates rt = some tmpl)
    (hhook : tmpl.hooks.preStart ≠ "")
    (h6 : (tmpl.container.network ≠ "" ∧
            ∃ ip ipPool1, ipPool.Allocate sid = .ok (ip, ipPool1)) ∨
          (tmpl.container.network = "" ∧
            ∃ pt portPool1, portPool.Allocate sid = .ok (pt, portPool1))) :
    (∀ e, (createServer templates rt reqEnv mem cpu sid (.error e)
        providerResult eh ipPool portPool).status = 500 ∧
      (createServer templates rt reqEnv mem cpu sid (.error e)
        providerResult eh ipPool portPool).errorMsg =
        some ("hook failed: " ++ e) ∧
      (createServer templates rt reqEnv mem cpu sid (.error e)
        providerResult eh ipPool portPool).providerAttempted = false) ∧
    (∀ resp : HookResp,
      (createServer templates rt reqEnv mem cpu sid (.ok resp)
        providerResult eh ipPool portPool).providerAttempted = true) := by
  rcases h6 with ⟨hnet, ip, ipPool1, halloc⟩ | ⟨hnet, pt, portPool1, halloc⟩
  · constructor
    · intro e
      rw [createServer_overlay templates rt reqEnv mem cpu sid (.error e)
          providerResult eh ipPool portPool tmpl ip ipPool1 hfind hnet halloc,
        finishCreate_hook_error tmpl reqEnv mem cpu sid e providerResult eh
          ipPool1 portPool (some ip) _ _ hhook]
      exact ⟨rfl, rfl, rfl⟩
    · intro resp
      rw [createServer_overlay templates rt reqEnv mem cpu sid (.ok resp)
        providerResult eh ipPool portPool tmpl ip ipPool1 hfind hnet halloc]
      exact finishCreate_attempted tmpl reqEnv mem cpu sid (.ok resp)
        providerResult eh ipPool1 portPool (some ip) _ _ (Or.inr ⟨resp, rfl⟩)
  · constructor
    · intro e
      rw [createServer_host templates rt reqEnv mem cpu sid (.error e)
          providerResult eh ipPool portPool tmpl pt portPool1 hfind hnet halloc,
        finishCreate_hook_error tmpl reqEnv mem cpu sid e providerResult eh
          ipPool portPool1 none _ _ hhook]
      exact ⟨rfl, rfl, rfl⟩
    · intro resp
      rw [createServer_host templates rt reqEnv mem cpu sid (.ok resp)
        providerResult eh ipPool portPool tmpl pt portPool1 hfind hnet halloc]
      exact finishCreate_attempted tmpl reqEnv mem cpu sid (.ok resp)
        providerResult eh ipPool portPool1 none _ _ (Or.inr ⟨resp, rfl⟩)

theorem C3_hook_transport_only_witness :
    (createServer [("game", tmplOverlayHook)] "game" [] 0 0 "game-3"
        (.error "boom") (.error "prov down") "" (ips.NewPool 10 12)
        (ports.NewPool 5521 5599)).providerAttempted = false ∧
    (createServer [("game", tmplOverlayHook)] "game" [] 0 0 "game-3"
        (.ok { statusCode := 503, env := [] }) (.error "prov down") ""
        (ips.NewPool 10 12) (ports.NewPool 5521 5599)).providerAttempted =
      true := by
  have h := C3_hook_transport_only [("game", tmplOverlayHook)] "game" [] 0 0
    "game-3" (.error "prov down") "" (ips.NewPool 10 12)
    (ports.NewPool 5521 5599) tmplOverlayHook rfl (by decide)
    (Or.inl ⟨by decide, 10,
      { ips.NewPool 10 12 with allocated := [(10, "game-3")] }, rfl⟩)
  exact ⟨(h.1 "boom").2.2, h.2 { statusCode := 503, env := [] }⟩

/-- Claim C5: when the provider's container-creation call fails after a
successful step-6 allocation (the hook step not having aborted), the
handler answers 500 carrying the provider's error and releases exactly the
one entry allocated in step 6 — both pools end identical to their
pre-request state, so no partial state is left in either. -/
theorem C5_provider_failure_rollback (templates : List (String × Template))
    (rt : String) (reqEnv : List (String × String)) (mem cpu : Int)
    (sid e : String) (hookResult : Except String HookResp) (eh : String)
    (ipPool : ips.Pool) (portPool : ports.Pool) (tmpl : Template)
    (hfind : PoolMap.find templates rt = some tmpl)
    (hok : tmpl.hooks.preStart = "" ∨ ∃ r, hookResult = .ok r) :
    (∀ ip ipPool1, tmpl.container.network ≠ "" →
      ipPool.Allocate sid = .ok (ip, ipPool1) →
      (createServer templates rt reqEnv mem cpu sid hookResult (.error e) eh
          ipPool portPool).status = 500 ∧
      (createServer templates rt reqEnv mem cpu sid hookResult (.error e) eh
          ipPool portPool).errorMsg = some e ∧
      (createServer templates rt reqEnv mem cpu sid hookResult (.error e) eh
          ipPool portPool).ipPool = ipPool ∧
      (createServer templates rt reqEnv mem cpu sid hookResult (.error e) eh
          ipPool portPool).portPool = portPool) ∧
    (∀ pt portPool1, tmpl.container.network = "" →
      portPool.Allocate sid = .ok (pt, portPool1) →
      (createServer templates rt reqEnv mem cpu sid hookResult (.error e) eh
          ipPool portPool).status = 500 ∧
      (createServer templates rt reqEnv mem cpu sid hookResult (.error e) eh
          ipPool portPool).errorMsg = some e ∧
      (createServer templates rt reqEnv mem cpu sid hookResult (.error e) eh
          ipPool portPool).portPool = portPool ∧
      (createServer templates rt reqEnv mem cpu sid hookResult (.error e) eh
          ipPool portPool).ipPool = ipPool) := by
  constructor
  · intro ip ipPool1 hnet halloc
    have hrel : ipPool1.Release ip = ipPool := by
      obtain ⟨hfree, hp⟩ := ips.Allocate_ok_inv ipPool sid ip ipPool1 halloc
      subst hp
      exact ips.Pool.ext rfl rfl rfl
        (PoolMap.erase_insert_cancel ipPool.allocated ip sid hfree)
    rw [createServer_overlay templates rt reqEnv mem cpu sid hookResult
      (.error e) eh ipPool portPool tmpl ip ipPool1 hfind hnet halloc]
    obtain ⟨h1, h2, h3, h4⟩ := finishCreate_provider_error tmpl reqEnv mem cpu
      sid hookResult e eh ipPool1 portPool (some ip)
      (match tmpl.container.ports with
        | [] => (5520 : Int)
        | b :: _ => b.container)
      { tmpl.container with
          ip := some ip,
          environment := PoolMap.insert
            (mergeEnv tmpl.container.environment tmpl.server)
            "SERVER_HOST" (ips.ipString ip) } hok
    refine ⟨h1, h2, ?_, ?_⟩
    · rw [h3]
      exact hrel
    · rw [h4]
  · intro pt portPool1 hnet halloc
    have hrel : portPool1.Release pt = portPool := by
      obtain ⟨hfree, hp⟩ := ports.portAllocate_ok_inv portPool sid pt portPool1
        halloc
      subst hp
      exact ports.Pool.ext rfl rfl
        (PoolMap.erase_insert_cancel portPool.allocated pt sid hfree)
    rw [createServer_host templates rt reqEnv mem cpu sid hookResult
      (.error e) eh ipPool portPool tmpl pt portPool1 hfind hnet halloc]
    obtain ⟨h1, h2, h3, h4⟩ := finishCreate_provider_error tmpl reqEnv mem cpu
      sid hookResult e eh ipPool portPool1 none pt
      { tmpl.container with
          ports := tmpl.container.ports.map
            (fun b => { b with host := pt, container := pt }),
          environment := PoolMap.insert
            (mergeEnv tmpl.container.environment tmpl.server)
            "SERVER_HOST" "0.0.0.0" } hok
    refine ⟨h1, h2, ?_, ?_⟩
    · rw [h4]
      exact hrel
    · rw [h3]

theorem C5_provider_failure_rollback_witness :
    (createServer [("game", tmplOverlayHook)] "game" [] 0 0 "game-5"
        (.ok { statusCode := 200, env := [] }) (.error "image not found") ""
        (ips.NewPool 10 12) (ports.NewPool 5521 5599)).ipPool =
      ips.NewPool 10 12 ∧
    (createServer [("game", tmplOverlayHook)] "game" [] 0 0 "game-5"
        (.ok { statusCode := 200, env := [] }) (.error "image not found") ""
        (ips.NewPool 10 12) (ports.NewPool 5521 5599)).portPool =
      ports.NewPool 5521 5599 := by
  have h := C5_provider_failure_rollback [("game", tmplOverlayHook)] "game"
    [] 0 0 "game-5" "image not found" (.ok { statusCode := 200, env := [] })
    "" (ips.NewPool 10 12) (ports.NewPool 5521 5599) tmplOverlayHook rfl
    (Or.inr ⟨{ statusCode := 200, env := [] }, rfl⟩)
  have h2 := h.1 10 { ips.NewPool 10 12 with allocated := [(10, "game-5")] }
    (by decide) rfl
  exact ⟨h2.2.2.1, h2.2.2.2⟩

/-- Claim C8: exactly one pool is touched per request — with a non-empty
network field the port pool passes through every path unchanged and the
reachable port is read off the template's first declared binding (5520 when
none is declared) rather than the port pool; with an empty network field
the IP pool passes through unchanged. -/
theorem C8_exactly_one_pool (templates : List (String × Template))
    (rt : String) (reqEnv : List (String × String)) (mem cpu : Int)
    (sid : String) (hookResult : Except String HookResp)
    (providerResult : Except String ProviderInstance) (eh : String)
    (ipPool : ips.Pool) (portPool : ports.Pool) (tmpl : Template)
    (hfind : PoolMap.find templates rt = some tmpl) :
    (tmpl.container.network ≠ "" →
      (createServer templates rt reqEnv mem cpu sid hookResult providerResult
          eh ipPool portPool).portPool = portPool ∧
      (∀ ip ipPool1, ipPool.Allocate sid = .ok (ip, ipPool1) →
        (createServer templates rt reqEnv mem cpu sid hookResult
            providerResult eh ipPool portPool).allocatedPort =
          (match tmpl.container.ports with
            | [] => (5520 : Int)
            | b :: _ => b.container))) ∧
    (tmpl.container.network = "" →
      (createServer templates rt reqEnv mem cpu sid hookResult providerResult
          eh ipPool portPool).ipPool = ipPool) := by
  constructor
  · intro hnet
    constructor
    · cases halloc : ipPool.Allocate sid with
      | error err =>
        unfold createServer
        rw [hfind]
        simp only [if_pos hnet, halloc]
      | ok pr =>
        obtain ⟨ip, ipPool1⟩ := pr
        rw [createServer_overlay templates rt reqEnv mem cpu sid hookResult
          providerResult eh ipPool portPool tmpl ip ipPool1 hfind hnet halloc]
        exact finishCreate_portPool_overlay tmpl reqEnv mem cpu sid hookResult
          providerResult eh ipPool1 portPool ip _ _
    · intro ip ipPool1 halloc
      rw [createServer_overlay templates rt reqEnv mem cpu sid hookResult
        providerResult eh ipPool portPool tmpl ip ipPool1 hfind hnet halloc]
      exact (finishCreate_allocated tmpl reqEnv mem cpu sid hookResult
        providerResult eh ipPool1 portPool (some ip) _ _).2
  · intro hnet
    cases halloc : portPool.Allocate sid with
    | error err =>
      unfold createServer
      rw [hfind]
      simp only [hnet, ne_eq, not_true_eq_false, if_false, halloc]
    | ok pr =>
      obtain ⟨pt, portPool1⟩ := pr
      rw [createServer_host templates rt reqEnv mem cpu sid hookResult
        providerResult eh ipPool portPool tmpl pt portPool1 hfind hnet halloc]
      exact finishCreate_ipPool_host tmpl reqEnv mem cpu sid hookResult
        providerResult eh ipPool portPool1 _ _

theorem C8_exactly_one_pool_witness :
    (createServer [("game", tmplOverlayHook)] "game" [] 0 0 "game-8"
        (.ok { statusCode := 200, env := [] }) (.error "prov") ""
        (ips.NewPool 10 12) (ports.NewPool 5521 5599)).portPool =
      ports.NewPool 5521 5599 ∧
    (createServer [("game", tmplOverlayHook)] "game" [] 0 0 "game-8"
        (.ok { statusCode := 200, env := [] }) (.error "prov") ""
        (ips.NewPool 10 12) (ports.NewPool 5521 5599)).allocatedPort =
      5520 := by
  have h := C8_exactly_one_pool [("game", tmplOverlayHook)] "game" [] 0 0
    "game-8" (.ok { statusCode := 200, env := [] }) (.error "prov") ""
    (ips.NewPool 10 12) (ports.NewPool 5521 5599) tmplOverlayHook rfl
  have h1 := h.1 (by decide)
  exact ⟨h1.1,
    h1.2 10 { ips.NewPool 10 12 with allocated := [(10, "game-8")] } rfl⟩

end Bananagine
